import Mathlib

/-!
Verification development for the orchid structured logging library
(github.com/epiphyte/orchid).  The definitions below are a shallow
embedding of the mature variant of the Go source: the logger and
package-level entry points of `orchid.go` and the configuration
singleton of `configuration.go`.  Strings are modelled as Lean
`String`, Go `int` as `Int`, machine state as explicit record passing,
and fallible operations return a Go-style `Option String` error
component alongside the updated state.  File-system effects (open,
close, write) are resolved by explicit oracle arguments describing the
outcome the OS would report.
-/

/-! ## Go string primitives -/

/-- Whitespace predicate of Go `unicode.IsSpace`: the Unicode
White_Space property, which is what `strings.TrimSpace` trims. -/
def goIsSpace (c : Char) : Bool :=
  let n := c.toNat
  n == 9 || n == 10 || n == 11 || n == 12 || n == 13 || n == 32 ||
  n == 0x85 || n == 0xA0 || n == 0x1680 ||
  (decide (0x2000 ≤ n) && decide (n ≤ 0x200A)) ||
  n == 0x2028 || n == 0x2029 || n == 0x202F || n == 0x205F || n == 0x3000

/-- Trim Unicode whitespace from both ends of a character list:
drop from the left, then drop from the (reversed) right. -/
def trimList (l : List Char) : List Char :=
  ((l.dropWhile goIsSpace).reverse.dropWhile goIsSpace).reverse

/-- Go `strings.TrimSpace`. -/
def goTrimSpace (s : String) : String :=
  String.mk (trimList s.data)

/-- UTF-8 byte width of a single scalar value, as Go encodes runes. -/
def charUtf8Size (c : Char) : Nat :=
  if c.toNat < 0x80 then 1
  else if c.toNat < 0x800 then 2
  else if c.toNat < 0x10000 then 3
  else 4

/-- Go `len` on a string: the number of UTF-8 bytes. -/
def goLen (s : String) : Nat :=
  (s.data.map charUtf8Size).sum

/-- Go `strings.Contains(s, "\x00")`: whether the string holds a null byte. -/
def hasNullByte (s : String) : Bool :=
  s.data.contains (Char.ofNat 0)

/-! ## Logger state and `Logger.Init` -/

/-- Per-module logger state.  The Go struct also carries a mutex, which
has no sequential content; the `module` field is everything a dispatch
reads.  The Go zero value `var l Logger` corresponds to `Logger.mk ""`. -/
structure Logger where
  module : String
deriving DecidableEq

/-- Embedding of `Logger.Init` from `orchid.go`: trim the module name,
reject the empty result, reject a trimmed byte length above 50,
otherwise store the trimmed name.  Returns the Go `(error, receiver)`
pair; on error the receiver is untouched. -/
def loggerInit (l : Logger) (moduleName : String) : Option String × Logger :=
  let trimmed := goTrimSpace moduleName
  if trimmed = "" then
    (some ("module name cannot be empty or whitespace-only"), l)
  else if goLen trimmed > 50 then
    (some ("module name too long (max 50 characters): " ++ toString (goLen trimmed)), l)
  else
    (none, ⟨trimmed⟩)

/-- Embedding of the package-level `Init`, which forwards to
`defaultLogger.Init` under the facade lock. -/
def globalInit (defaultLogger : Logger) (moduleName : String) : Option String × Logger :=
  loggerInit defaultLogger moduleName

/-! ## Configuration state

The Go `Configuration` singleton guards `defaultFile`, `defaultFormat`,
`enableColors` and the shared `*os.File` with a reader/writer lock.  We
model the sequential content: the open handle carries an identity (for
leak accounting), the path it was opened on, and the bytes appended
since the open.  `World` wraps the configuration with instrumentation
that the Go runtime would provide implicitly: a fresh-handle counter, a
ledger of open/close events, the number of `os.OpenFile` calls issued,
and whether the most recent open attempt succeeded. -/

structure FileHandle where
  hid : Nat
  path : String
  buf : String
deriving DecidableEq

structure Config where
  defaultFile : String
  defaultFormat : Int
  enableColors : Bool
  logFile : Option FileHandle
deriving DecidableEq

inductive FsEvent where
  | opened (hid : Nat)
  | closed (hid : Nat)
deriving DecidableEq

structure World where
  cfg : Config
  nextHid : Nat
  events : List FsEvent
  fsCalls : Nat
  lastOpenOk : Bool
deriving DecidableEq

/-- State of `GetConfiguration()` right after lazy construction: no
file, TEXT format, colors enabled. -/
def initialWorld : World :=
  { cfg := { defaultFile := "", defaultFormat := 0, enableColors := true, logFile := none }
  , nextHid := 0
  , events := []
  , fsCalls := 0
  , lastOpenOk := false }

/-- The close-if-open compound used at the head of `SetDefaultFile` and
`Reset`; the error of `logFile.Close()` is discarded there. -/
def closeHandleOnly (w : World) : World :=
  match w.cfg.logFile with
  | none => w
  | some h =>
    { w with cfg := { w.cfg with logFile := none }
           , events := w.events ++ [FsEvent.closed h.hid] }

/-- Embedding of `Configuration.SetDefaultFile`: close any existing
handle, store the new path, and (for a non-empty path) attempt
`os.OpenFile` in append/create/write-only mode.  `openRes` is the OS
oracle: `none` means the open succeeds, `some e` gives the failure
text.  Note the Go code stores the path before opening, so a failed
open leaves the path set with no handle. -/
def setDefaultFile (openRes : Option String) (w : World) (filePath : String) :
    Option String × World :=
  let w1 := closeHandleOnly w
  let w2 := { w1 with cfg := { w1.cfg with defaultFile := filePath } }
  if filePath = "" then
    (none, { w2 with lastOpenOk := false })
  else
    match openRes with
    | none =>
      (none, { w2 with
               cfg := { w2.cfg with logFile := some ⟨w2.nextHid, filePath, ""⟩ }
             , nextHid := w2.nextHid + 1
             , events := w2.events ++ [FsEvent.opened w2.nextHid]
             , fsCalls := w2.fsCalls + 1
             , lastOpenOk := true })
    | some e =>
      (some ("failed to open log file: " ++ e),
       { w2 with fsCalls := w2.fsCalls + 1, lastOpenOk := false })

/-- Embedding of `Configuration.Close`: close the handle if present,
clear the handle and the path, and surface any error of the underlying
`file.Close()` (oracle `closeErr`).  With no handle it is a no-op. -/
def configClose (closeErr : Option String) (w : World) : Option String × World :=
  match w.cfg.logFile with
  | none => (none, w)
  | some h =>
    let w1 := { w with cfg := { w.cfg with logFile := none, defaultFile := "" }
                     , events := w.events ++ [FsEvent.closed h.hid]
                     , lastOpenOk := false }
    match closeErr with
    | some e => (some ("failed to close log file: " ++ e), w1)
    | none => (none, w1)

/-- Embedding of `Configuration.Reset`: close any open handle and
restore the defaults. -/
def configReset (w : World) : World :=
  let w1 := closeHandleOnly w
  { w1 with cfg := { w1.cfg with defaultFile := "", defaultFormat := 0, enableColors := true }
          , lastOpenOk := false }

/-- Embedding of `Configuration.SetDefaultFormat` (no validation). -/
def setDefaultFormatW (f : Int) (w : World) : World :=
  { w with cfg := { w.cfg with defaultFormat := f } }

/-- Embedding of `Configuration.SetEnableColors`. -/
def setEnableColorsW (b : Bool) (w : World) : World :=
  { w with cfg := { w.cfg with enableColors := b } }

/-- Embedding of `Configuration.GetDefaultFile`. -/
def getDefaultFile (w : World) : String := w.cfg.defaultFile

/-! ## The package-level `SetLogFile` -/

/-- Path validation block of `SetLogFile`: only applied to a non-empty
path, checking trimmed-form equality, null bytes, then byte length. -/
def setLogFilePathErr (filePath : String) : Option String :=
  if filePath = "" then none
  else if goTrimSpace filePath ≠ filePath then
    some ("file path cannot have leading or trailing whitespace")
  else if hasNullByte filePath then
    some ("file path cannot contain null bytes")
  else if goLen filePath > 260 then
    some ("file path too long (max 260 characters): " ++ toString (goLen filePath))
  else none

/-- Embedding of the package-level `SetLogFile`: validate the format
code and the path before touching any shared state, then forward to
`Configuration.SetDefaultFile` and `SetDefaultFormat`. -/
def setLogFile (openRes : Option String) (w : World) (filePath : String) (format : Int) :
    Option String × World :=
  if format < 0 ∨ 1 < format then
    (some ("invalid log format: " ++ toString format ++ " (must be between 0 and 1)"), w)
  else
    match setLogFilePathErr filePath with
    | some e => (some e, w)
    | none =>
      match setDefaultFile openRes w filePath with
      | (some e, w1) => (some ("failed to set log file: " ++ e), w1)
      | (none, w1) => (none, setDefaultFormatW format w1)

/-! ## Wall-clock time

A `time.Time` as the logger consumes it: a UTC civil timestamp with
zero nanoseconds.  Only its two renderings matter to the code: the
text layout `2006-01-02 15:04:05` and the `RFC3339Nano` layout used by
`time.Time.MarshalJSON` (with zero nanoseconds the fraction is
omitted and UTC prints as `Z`). -/

structure GoTime where
  year : Nat
  month : Nat
  day : Nat
  hour : Nat
  minute : Nat
  sec : Nat
deriving DecidableEq

/-- Decimal digit character for a value below ten. -/
def digCh : Nat → Char
  | 0 => '0' | 1 => '1' | 2 => '2' | 3 => '3' | 4 => '4'
  | 5 => '5' | 6 => '6' | 7 => '7' | 8 => '8' | _ => '9'

/-- Decimal digit rendering with a structural fuel argument, so that
it reduces definitionally; fuel `n` always suffices for `n` itself. -/
def natDigsFuel : Nat → Nat → List Char
  | 0, n => [digCh n]
  | fuel + 1, n =>
    if n < 10 then [digCh n] else natDigsFuel fuel (n / 10) ++ [digCh (n % 10)]

/-- Decimal digit list of a natural number, most significant first. -/
def natDigs (n : Nat) : List Char := natDigsFuel n n

/-- Zero-pad a decimal rendering to a minimum width, as the numeric
verbs of Go's reference time layout do. -/
def padNat (width n : Nat) : List Char :=
  List.replicate (width - (natDigs n).length) '0' ++ natDigs n

/-- Rendering of `Time.Format("2006-01-02 15:04:05")`. -/
def txtTime (t : GoTime) : String :=
  String.mk (padNat 4 t.year ++ ['-'] ++ padNat 2 t.month ++ ['-'] ++ padNat 2 t.day
    ++ [' '] ++ padNat 2 t.hour ++ [':'] ++ padNat 2 t.minute ++ [':'] ++ padNat 2 t.sec)

/-- Rendering produced by `time.Time.MarshalJSON` (RFC3339, UTC, zero
nanoseconds) without the surrounding quotes. -/
def rfcTime (t : GoTime) : String :=
  String.mk (padNat 4 t.year ++ ['-'] ++ padNat 2 t.month ++ ['-'] ++ padNat 2 t.day
    ++ ['T'] ++ padNat 2 t.hour ++ [':'] ++ padNat 2 t.minute ++ [':'] ++ padNat 2 t.sec
    ++ ['Z'])

/-! ## JSON string escaping, as `encoding/json` performs it

Go's encoder (HTML escaping on, the `json.Marshal` default) writes a
quote, backslash, newline, carriage return and tab as two-character
escapes, any other control character as a four-hex-digit u-escape,
the HTML-sensitive less-than, greater-than and ampersand as u-escapes
as well, likewise the line separators U+2028 and U+2029; every other
scalar is emitted verbatim. -/

/-- Lower-case hexadecimal digit character for a value below sixteen. -/
def hexCh : Nat → Char
  | 0 => '0' | 1 => '1' | 2 => '2' | 3 => '3' | 4 => '4'
  | 5 => '5' | 6 => '6' | 7 => '7' | 8 => '8' | 9 => '9'
  | 10 => 'a' | 11 => 'b' | 12 => 'c' | 13 => 'd' | 14 => 'e' | _ => 'f'

/-- Escape of one character under Go's JSON string encoder. -/
def escChar (c : Char) : List Char :=
  if c = '"' then ['\\', '"']
  else if c = '\\' then ['\\', '\\']
  else if c = '\n' then ['\\', 'n']
  else if c = '\r' then ['\\', 'r']
  else if c = '\t' then ['\\', 't']
  else if c.toNat < 0x20 then
    ['\\', 'u', '0', '0', hexCh (c.toNat / 16), hexCh (c.toNat % 16)]
  else if c = '<' then ['\\', 'u', '0', '0', '3', 'c']
  else if c = '>' then ['\\', 'u', '0', '0', '3', 'e']
  else if c = '&' then ['\\', 'u', '0', '0', '2', '6']
  else if c.toNat = 0x2028 then ['\\', 'u', '2', '0', '2', '8']
  else if c.toNat = 0x2029 then ['\\', 'u', '2', '0', '2', '9']
  else [c]

/-- Escape of a character list. -/
def escList : List Char → List Char
  | [] => []
  | c :: cs => escChar c ++ escList cs

/-- Escape of a string. -/
def escStr (s : String) : String :=
  String.mk (escList s.data)

/-! ## A JSON line decoder (specification side)

To state the round-trip property we equip the file encoding with a
decoder: `decodeStr` reads the body of a JSON string up to its closing
quote, undoing the escapes above, and `parseJsonLine` reads exactly
the object shape the logger writes. -/

/-- Numeric value of a lower-case hexadecimal digit character. -/
def hexVal (c : Char) : Option Nat :=
  if c = '0' then some 0 else if c = '1' then some 1
  else if c = '2' then some 2 else if c = '3' then some 3
  else if c = '4' then some 4 else if c = '5' then some 5
  else if c = '6' then some 6 else if c = '7' then some 7
  else if c = '8' then some 8 else if c = '9' then some 9
  else if c = 'a' then some 10 else if c = 'b' then some 11
  else if c = 'c' then some 12 else if c = 'd' then some 13
  else if c = 'e' then some 14 else if c = 'f' then some 15
  else none

/-- Meaning of a two-character escape after the backslash. -/
def simpleEsc (e : Char) : Option Char :=
  if e = '"' then some '"'
  else if e = '\\' then some '\\'
  else if e = '/' then some '/'
  else if e = 'n' then some '\n'
  else if e = 'r' then some '\r'
  else if e = 't' then some '\t'
  else if e = 'b' then some (Char.ofNat 8)
  else if e = 'f' then some (Char.ofNat 12)
  else none

/-- Decode the body of a JSON string: stop at the first unescaped
quote and return the decoded body together with the unconsumed rest. -/
def decodeStr : List Char → Option (List Char × List Char)
  | [] => none
  | c :: rest =>
    if c = '"' then some ([], rest)
    else if c = '\\' then
      match rest with
      | [] => none
      | e :: rest2 =>
        if e = 'u' then
          match rest2 with
          | a :: b :: d :: f :: rest3 =>
            match hexVal a, hexVal b, hexVal d, hexVal f with
            | some x, some y, some z, some t =>
              match decodeStr rest3 with
              | some (s, r) => some (Char.ofNat (4096 * x + 256 * y + 16 * z + t) :: s, r)
              | none => none
            | _, _, _, _ => none
          | _ => none
        else
          match simpleEsc e with
          | some ch =>
            match decodeStr rest2 with
            | some (s, r) => some (ch :: s, r)
            | none => none
          | none => none
    else
      match decodeStr rest with
      | some (s, r) => some (c :: s, r)
      | none => none

/-- Consume an expected literal chunk from the head of the input. -/
def dropLit : List Char → List Char → Option (List Char)
  | [], r => some r
  | _ :: _, [] => none
  | c :: cs, x :: xs => if x = c then dropLit cs xs else none

/-! ## Log records and file encodings -/

/-- The internal `logMessage` struct; field names and order follow the
Go declaration, which fixes the JSON member order. -/
structure LogMsg where
  Severity : String
  Text : String
  Module : String
  Time : GoTime
deriving DecidableEq

/-- The object `json.Marshal` produces for a `logMessage`: members in
declaration order, string bodies escaped, the time rendered by
`time.Time.MarshalJSON`. -/
def jsonEncode (msg : LogMsg) : String :=
  "\x7b\"Severity\":\"" ++ escStr msg.Severity ++
  "\",\"Text\":\"" ++ escStr msg.Text ++
  "\",\"Module\":\"" ++ escStr msg.Module ++
  "\",\"Time\":\"" ++ rfcTime msg.Time ++ "\"\x7d"

/-- `json.Marshal` on a `logMessage`: `time.Time.MarshalJSON` rejects
a year outside 0..9999, which is the only failure mode of this
struct. -/
def jsonMarshal (msg : LogMsg) : Except String String :=
  if msg.Time.year ≥ 10000 then
    Except.error ("Time.MarshalJSON: year outside of range [0,9999]")
  else
    Except.ok (jsonEncode msg)

/-- Decoder for the exact object shape `jsonEncode` writes, returning
the four member strings.  This is the specification-side inverse used
to state the round-trip property. -/
def parseJsonLine (l : List Char) : Option (String × String × String × String) :=
  Option.bind (dropLit ("\x7b\"Severity\":\"").data l) (fun l1 =>
  Option.bind (decodeStr l1) (fun ps =>
  Option.bind (dropLit (",\"Text\":\"").data ps.2) (fun l3 =>
  Option.bind (decodeStr l3) (fun pt =>
  Option.bind (dropLit (",\"Module\":\"").data pt.2) (fun l5 =>
  Option.bind (decodeStr l5) (fun pm =>
  Option.bind (dropLit (",\"Time\":\"").data pm.2) (fun l7 =>
  Option.bind (decodeStr l7) (fun pe =>
  if pe.2 = ['\x7d'] then
    some (String.mk ps.1, String.mk pt.1, String.mk pm.1, String.mk pe.1)
  else none))))))))

/-- The TEXT encoding of a record, as `writeToFile` formats it. -/
def txtEncode (msg : LogMsg) : String :=
  txtTime msg.Time ++ " [" ++ msg.Severity ++ "] " ++ msg.Module ++ ": " ++ msg.Text

/-! ## File mirroring and console dispatch -/

/-- Replace the open handle's buffer after an `fmt.Fprintln` append. -/
def putBuf (w : World) (h : FileHandle) (s : String) : World :=
  { w with cfg := { w.cfg with logFile := some ⟨h.hid, h.path, h.buf ++ s⟩ } }

/-- Embedding of `Logger.writeToFile`: a silent no-op with no file
configured; an error if a file is configured but the handle is gone;
otherwise encode per the configured format and append one
`fmt.Fprintln` write (payload plus newline).  `writeErr` is the OS
oracle for the write itself. -/
def writeToFile (writeErr : Option String) (w : World) (msg : LogMsg) :
    Option String × World :=
  if w.cfg.defaultFile = "" then
    (none, w)
  else
    match w.cfg.logFile with
    | none => (some ("log file configured but file handle is not available"), w)
    | some h =>
      if w.cfg.defaultFormat = 0 then
        match writeErr with
        | some e => (some ("failed to write text log to file: " ++ e), w)
        | none => (none, putBuf w h (txtEncode msg ++ "\n"))
      else if w.cfg.defaultFormat = 1 then
        match jsonMarshal msg with
        | Except.error e => (some ("failed to marshal log message to JSON: " ++ e), w)
        | Except.ok jsonData =>
          match writeErr with
          | some e => (some ("failed to write JSON log to file: " ++ e), w)
          | none => (none, putBuf w h (jsonData ++ "\n"))
      else
        (some ("unsupported log format: " ++ toString w.cfg.defaultFormat), w)

/-- ANSI reset sequence. -/
def COLOR_RESET : String := "\x1b[0m"

/-- ANSI color for INFO. -/
def COLOR_INFO : String := "\x1b[48;5;33m"

/-- ANSI color for OK. -/
def COLOR_OK : String := "\x1b[48;5;36m"

/-- ANSI color for WARN. -/
def COLOR_WARN : String := "\x1b[48;5;3m"

/-- ANSI color for ERROR. -/
def COLOR_ERROR : String := "\x1b[48;5;1m"

/-- ANSI color for FATAL. -/
def COLOR_FATAL : String := "\x1b[48;5;1m"

/-- ANSI color for DEBUG. -/
def COLOR_DEBUG : String := "\x1b[48;5;5m"

/-- The color switch of `printLogMessage`: an unrecognized severity
keeps the INFO color it started from. -/
def colorFor (severity : String) : String :=
  if severity = "INFO" then COLOR_INFO
  else if severity = "OK" then COLOR_OK
  else if severity = "WARN" then COLOR_WARN
  else if severity = "ERROR" then COLOR_ERROR
  else if severity = "FATAL" then COLOR_FATAL
  else if severity = "DEBUG" then COLOR_DEBUG
  else COLOR_INFO

/-- Spaces of a given count. -/
def spacesStr (n : Nat) : String :=
  String.mk (List.replicate n ' ')

/-- Go `fmt` `%-Ns`: left-justify, padding with spaces on the right up
to a minimum width counted in runes. -/
def fmtMinus (width : Nat) (s : String) : String :=
  s ++ spacesStr (width - s.data.length)

/-- The `%-20s %-6s` metadata header of `printLogMessage`. -/
def metadataOf (msg : LogMsg) : String :=
  fmtMinus 20 msg.Module ++ " " ++ fmtMinus 6 msg.Severity

/-- The console line `printLogMessage` builds, with or without
colors. -/
def consoleRender (enableColors : Bool) (msg : LogMsg) : String :=
  if enableColors then
    COLOR_RESET ++ " " ++ colorFor msg.Severity ++ " " ++ metadataOf msg ++ " " ++
      COLOR_RESET ++ " " ++ msg.Text
  else
    metadataOf msg ++ " " ++ msg.Text

/-- Observable output of one dispatch: console lines, the standard
error side channel, and whether the call terminates the process
(`log.Fatal`). -/
structure LogOutput where
  console : List String
  errStream : List String
  terminated : Bool
deriving DecidableEq

/-- Embedding of `Logger.printLogMessage`: build the console line,
attempt the file mirror, downgrade a mirror failure to a standard
error report, then write the console line (followed by process
termination for FATAL). -/
def printLogMessage (writeErr : Option String) (w : World) (msg : LogMsg) :
    World × LogOutput :=
  let consoleMessage := consoleRender w.cfg.enableColors msg
  match writeToFile writeErr w msg with
  | (some e, w1) =>
    (w1, ⟨[consoleMessage], ["ORCHID FILE ERROR: " ++ e], msg.Severity == "FATAL"⟩)
  | (none, w1) =>
    (w1, ⟨[consoleMessage], [], msg.Severity == "FATAL"⟩)

/-- Embedding of `Logger.createLogMessage`: `Text` is the
`fmt.Sprint` rendering of the variadic arguments, taken here as an
already-stringified value; the stringification itself is an external
collaborator. -/
def createLogMessage (l : Logger) (severity text : String) (tm : GoTime) : LogMsg :=
  { Severity := severity, Text := text, Module := l.module, Time := tm }

/-- Embedding of `Logger.log`, the dispatch shared by every level
function. -/
def loggerLog (l : Logger) (severity text : String) (tm : GoTime)
    (writeErr : Option String) (w : World) : World × LogOutput :=
  printLogMessage writeErr w (createLogMessage l severity text tm)

/-- Embedding of `Logger.Info`. -/
def loggerInfo (l : Logger) (text : String) (tm : GoTime)
    (writeErr : Option String) (w : World) : World × LogOutput :=
  loggerLog l ("INFO") text tm writeErr w

/-! ## Claim C1: module-name validation in `Init` -/

/-- C1: for every module name `m`, `Logger.Init(m)` (and the global
`Init(m)`, which forwards to it) succeeds if and only if the
whitespace-trimmed form of `m` is non-empty and at most 50 bytes long,
and on success the stored module name is the trimmed form. -/
theorem init_validation_c1 (l : Logger) (m : String) :
    ((loggerInit l m).1 = none ↔ (goTrimSpace m ≠ "" ∧ goLen (goTrimSpace m) ≤ 50)) ∧
    ((loggerInit l m).1 = none → (loggerInit l m).2.module = goTrimSpace m) ∧
    globalInit l m = loggerInit l m := by
  refine ⟨?_, ?_, rfl⟩ <;>
  · simp only [loggerInit]
    by_cases h1 : goTrimSpace m = "" <;> by_cases h2 : goLen (goTrimSpace m) > 50 <;>
      simp [h1, h2] <;> omega

/-- Witness for C1 at the concrete input. -/
theorem init_validation_c1_w :
    (goTrimSpace ("  api  ") ≠ "" ∧ goLen (goTrimSpace ("  api  ")) ≤ 50) ∧
    (loggerInit (Logger.mk ("z")) ("  api  ")).2.module = goTrimSpace ("  api  ") := by
  have h := init_validation_c1 (Logger.mk ("z")) ("  api  ")
  exact ⟨by decide, h.2.1 (h.1.mpr (by decide))⟩

/-! ## Claim C3: `SetLogFile` input validation -/

/-- Helper: a path with a null byte, more than 260 bytes, or differing
from its trimmed form is rejected by the validation block. -/
theorem pathErrSome (p : String)
    (hp : hasNullByte p = true ∨ goLen p > 260 ∨ goTrimSpace p ≠ p) :
    (setLogFilePathErr p).isSome = true := by
  have hne : p ≠ "" := by
    rcases hp with h | h | h <;> intro hp0 <;> subst hp0 <;> exact absurd h (by decide)
  unfold setLogFilePathErr
  by_cases h1 : goTrimSpace p ≠ p
  · simp [hne, h1]
  · by_cases h2 : hasNullByte p
    · simp [hne, h1, h2]
    · have h3 : goLen p > 260 := by
        rcases hp with h | h | h
        · exact absurd h (by simp [h2])
        · exact h
        · exact absurd h h1
      simp [hne, h1, h2, h3]

/-- C3: an out-of-range format code, a null byte in the path, a path
longer than 260 bytes, or a path differing from its trimmed form makes
`SetLogFile` fail (with the `invalid log format` message for a bad
format code) while leaving the shared configuration — including the
file-system call counter — exactly as it was. -/
theorem invalid_input_rejection_c3 (w : World) (p : String) (f : Int) (r : Option String)
    (h : (f < 0 ∨ 1 < f) ∨ hasNullByte p = true ∨ goLen p > 260 ∨ goTrimSpace p ≠ p) :
    (setLogFile r w p f).1.isSome = true ∧ (setLogFile r w p f).2 = w ∧
    ((f < 0 ∨ 1 < f) →
      (setLogFile r w p f).1 =
        some ("invalid log format: " ++ toString f ++ " (must be between 0 and 1)")) := by
  by_cases hf : f < 0 ∨ 1 < f
  · unfold setLogFile
    simp [hf]
  · have hp : hasNullByte p = true ∨ goLen p > 260 ∨ goTrimSpace p ≠ p := by
      rcases h with h | h
      · exact absurd h hf
      · exact h
    obtain ⟨e, he⟩ := Option.isSome_iff_exists.mp (pathErrSome p hp)
    unfold setLogFile
    simp [hf, he]

/-- Witness for C3 at a concrete bad format code. -/
theorem invalid_input_rejection_c3_w :
    (setLogFile none initialWorld ("a.log") 99).1 =
      some ("invalid log format: " ++ toString (99 : Int) ++ " (must be between 0 and 1)") ∧
    (setLogFile none initialWorld ("a.log") 99).2 = initialWorld := by
  have h := invalid_input_rejection_c3 initialWorld ("a.log") 99 none (by decide)
  exact ⟨h.2.2 (by decide), h.2.1⟩

/-! ## Claim C6: empty path disables file output -/

/-- Helper: with no configured file, mirroring is an error-free no-op. -/
theorem writeToFile_noFile (we : Option String) (w : World) (msg : LogMsg)
    (h : w.cfg.defaultFile = "") : writeToFile we w msg = (none, w) := by
  unfold writeToFile
  simp [h]

/-- C6: for each declared format (TEXT = 0, JSON = 1), `SetLogFile("",
f)` succeeds, records the empty path with no open handle and no
file-system call, and every subsequent log call leaves the world
untouched and reports no file error. -/
theorem empty_path_disables_c6 (w : World) (f : Int) (r : Option String)
    (hf : f = 0 ∨ f = 1) :
    (setLogFile r w ("") f).1 = none ∧
    (setLogFile r w ("") f).2.cfg.defaultFile = "" ∧
    (setLogFile r w ("") f).2.cfg.logFile = none ∧
    (setLogFile r w ("") f).2.fsCalls = w.fsCalls ∧
    (∀ (l : Logger) (sev text : String) (tm : GoTime) (we : Option String),
      (loggerLog l sev text tm we (setLogFile r w ("") f).2).1 = (setLogFile r w ("") f).2 ∧
      (loggerLog l sev text tm we (setLogFile r w ("") f).2).2.errStream = []) := by
  have hnf : ¬ (f < 0 ∨ 1 < f) := by rcases hf with h | h <;> subst h <;> decide
  have hres : (setLogFile r w ("") f).1 = none ∧
      (setLogFile r w ("") f).2.cfg.defaultFile = "" ∧
      (setLogFile r w ("") f).2.cfg.logFile = none ∧
      (setLogFile r w ("") f).2.fsCalls = w.fsCalls := by
    unfold setLogFile setLogFilePathErr setDefaultFile closeHandleOnly setDefaultFormatW
    cases hlf : w.cfg.logFile <;> simp [hnf, hlf]
  refine ⟨hres.1, hres.2.1, hres.2.2.1, hres.2.2.2, ?_⟩
  intro l sev text tm we
  have hw := writeToFile_noFile we (setLogFile r w ("") f).2 (createLogMessage l sev text tm)
    hres.2.1
  unfold loggerLog printLogMessage
  rw [hw]
  exact ⟨rfl, rfl⟩

/-- Witness for C6: disable file output on a world that had an open
handle. -/
theorem empty_path_disables_c6_w :
    (setLogFile none (setLogFile none initialWorld ("app.log") 0).2 ("") 1).1 = none ∧
    (setLogFile none (setLogFile none initialWorld ("app.log") 0).2 ("") 1).2.cfg.logFile
      = none := by
  have h := empty_path_disables_c6 (setLogFile none initialWorld ("app.log") 0).2 1 none
    (Or.inr rfl)
  exact ⟨h.1, h.2.2.1⟩

/-! ## Claim C4: state after a failed open -/

/-- Counterexample to C4 as stated: after a validated path fails to
open, the configuration is NOT in the no-file state — the default file
path remains set to the rejected path and a subsequent mirror attempt
reports a missing handle instead of silently skipping. -/
theorem failed_open_counter_c4 :
    (setLogFile (some ("no such file or directory")) initialWorld ("/bad/x.log") 0).1.isSome
      = true ∧
    (setLogFile (some ("no such file or directory")) initialWorld ("/bad/x.log") 0).2.cfg.logFile
      = none ∧
    getDefaultFile (setLogFile (some ("no such file or directory")) initialWorld
      ("/bad/x.log") 0).2 = "/bad/x.log" ∧
    (writeToFile none (setLogFile (some ("no such file or directory")) initialWorld
        ("/bad/x.log") 0).2
      (createLogMessage (Logger.mk ("api")) ("INFO") ("x") (GoTime.mk 2024 1 2 3 4 5))).1 =
      some ("log file configured but file handle is not available") := by
  decide

/-- C4 amended: when a validated non-empty path fails to open,
`SetLogFile` (and `Configuration.SetDefaultFile`) returns an error and
retains no file handle, but the default file path remains set to the
failing path — a handle-absent state still referencing it. -/
theorem failed_open_amended_c4 (w : World) (p : String) (f : Int) (em : String)
    (hp : p ≠ "") (h1 : goTrimSpace p = p) (h2 : hasNullByte p = false)
    (h3 : goLen p ≤ 260) (hf : f = 0 ∨ f = 1) :
    (setLogFile (some em) w p f).1 =
      some ("failed to set log file: " ++ ("failed to open log file: " ++ em)) ∧
    (setLogFile (some em) w p f).2.cfg.logFile = none ∧
    (setLogFile (some em) w p f).2.cfg.defaultFile = p ∧
    (setDefaultFile (some em) w p).1 = some ("failed to open log file: " ++ em) ∧
    (setDefaultFile (some em) w p).2.cfg.logFile = none ∧
    (setDefaultFile (some em) w p).2.cfg.defaultFile = p := by
  have hnf : ¬ (f < 0 ∨ 1 < f) := by rcases hf with h | h <;> subst h <;> decide
  have hpe : setLogFilePathErr p = none := by
    unfold setLogFilePathErr
    have h3' : ¬ goLen p > 260 := by omega
    simp [hp, h1, h2, h3']
  have hsd : (setDefaultFile (some em) w p).1 = some ("failed to open log file: " ++ em) ∧
      (setDefaultFile (some em) w p).2.cfg.logFile = none ∧
      (setDefaultFile (some em) w p).2.cfg.defaultFile = p := by
    unfold setDefaultFile closeHandleOnly
    cases hlf : w.cfg.logFile <;> simp [hp, hlf]
  obtain ⟨he, hlf2, hdf2⟩ := hsd
  have hsplit : setDefaultFile (some em) w p =
      ((setDefaultFile (some em) w p).1, (setDefaultFile (some em) w p).2) := rfl
  unfold setLogFile
  rw [hpe, hsplit, he]
  simp [hnf, hlf2, hdf2, he]

/-- Witness for the amended C4 at a concrete failing open. -/
theorem failed_open_amended_c4_w :
    (setLogFile (some ("no parent")) initialWorld ("b.log") 1).1 =
      some ("failed to set log file: " ++ ("failed to open log file: " ++ "no parent")) ∧
    (setLogFile (some ("no parent")) initialWorld ("b.log") 1).2.cfg.defaultFile = "b.log" := by
  have h := failed_open_amended_c4 initialWorld ("b.log") 1 ("no parent")
    (by decide) (by decide) (by decide) (by decide) (Or.inr rfl)
  exact ⟨h.1, h.2.2.1⟩

/-! ## Claim C8: idempotence of `Close` -/

/-- Helper: any `Close` leaves no handle behind. -/
theorem configClose_logFile (e : Option String) (w : World) :
    ((configClose e w).2).cfg.logFile = none := by
  unfold configClose
  cases hlf : w.cfg.logFile
  · simpa using hlf
  · cases e <;> simp

/-- Helper: `Close` with no open handle is a no-op success. -/
theorem configClose_noop (e : Option String) (w : World) (h : w.cfg.logFile = none) :
    configClose e w = (none, w) := by
  unfold configClose
  rw [h]

/-- Counterexample to C8 as stated: in the reachable state left by a
failed open, `Close` succeeds but `GetConfiguration().GetDefaultFile()`
still returns the failing path, not the empty string. -/
theorem close_counter_c8 :
    (configClose none (setLogFile (some ("enoent")) initialWorld ("/bad/x.log") 0).2).1
      = none ∧
    getDefaultFile
      (configClose none (setLogFile (some ("enoent")) initialWorld ("/bad/x.log") 0).2).2
      = "/bad/x.log" := by
  decide

/-- C8 amended: a second `Close` never errors (the first always clears
the handle, making the second a no-op success); after a `Close` issued
while a handle was open the default file is empty; a `Close` with no
handle open changes nothing — in particular a path stored by a failed
open survives it. -/
theorem close_amended_c8 (w : World) (e1 e2 : Option String) :
    (configClose e2 (configClose e1 w).2).1 = none ∧
    (w.cfg.logFile.isSome = true → getDefaultFile (configClose e1 w).2 = "") ∧
    (w.cfg.logFile = none → configClose e1 w = (none, w)) := by
  refine ⟨?_, ?_, ?_⟩
  · rw [configClose_noop e2 _ (configClose_logFile e1 w)]
  · intro hs
    obtain ⟨h, hlf⟩ := Option.isSome_iff_exists.mp hs
    unfold configClose getDefaultFile
    rw [hlf]
    cases e1 <;> simp
  · exact fun h => configClose_noop e1 w h

/-- Witness for the amended C8: double close after a successful open. -/
theorem close_amended_c8_w :
    (configClose none (configClose none (setLogFile none initialWorld ("c.log") 0).2).2).1
      = none ∧
    getDefaultFile (configClose none (setLogFile none initialWorld ("c.log") 0).2).2 = "" := by
  have h := close_amended_c8 (setLogFile none initialWorld ("c.log") 0).2 none none
  exact ⟨h.1, h.2.1 (by decide)⟩

/-! ## Claim C7: unknown format values fail loudly -/

/-- C7: while a file is configured and the stored format code lies
outside TEXT/JSON, the mirroring step returns an error (the
`unsupported log format` message whenever the handle is present, the
missing-handle message otherwise), writes nothing, and dispatch
downgrades the failure to a standard-error report while still emitting
the console line. -/
theorem unknown_format_c7 (w : World) (l : Logger) (sev text : String) (tm : GoTime)
    (we : Option String)
    (hfile : w.cfg.defaultFile ≠ "") (h0 : w.cfg.defaultFormat ≠ 0)
    (h1 : w.cfg.defaultFormat ≠ 1) :
    (writeToFile we w (createLogMessage l sev text tm)).1.isSome = true ∧
    (writeToFile we w (createLogMessage l sev text tm)).2 = w ∧
    (w.cfg.logFile.isSome = true →
      (writeToFile we w (createLogMessage l sev text tm)).1 =
        some ("unsupported log format: " ++ toString w.cfg.defaultFormat)) ∧
    (loggerLog l sev text tm we w).1 = w ∧
    (loggerLog l sev text tm we w).2.console =
      [consoleRender w.cfg.enableColors (createLogMessage l sev text tm)] ∧
    (∃ e, (loggerLog l sev text tm we w).2.errStream = ["ORCHID FILE ERROR: " ++ e]) := by
  obtain ⟨e, he⟩ : ∃ e, (writeToFile we w (createLogMessage l sev text tm)).1 = some e := by
    unfold writeToFile
    cases hlf : w.cfg.logFile <;> simp [hfile, hlf, h0, h1]
  have hw2 : (writeToFile we w (createLogMessage l sev text tm)).2 = w := by
    unfold writeToFile
    cases hlf : w.cfg.logFile <;> simp [hfile, hlf, h0, h1]
  have hsplit : writeToFile we w (createLogMessage l sev text tm) =
      ((writeToFile we w (createLogMessage l sev text tm)).1,
       (writeToFile we w (createLogMessage l sev text tm)).2) := rfl
  refine ⟨by rw [he]; rfl, hw2, ?_, ?_, ?_, ?_⟩
  · intro hs
    obtain ⟨hh, hlf⟩ := Option.isSome_iff_exists.mp hs
    unfold writeToFile
    simp [hfile, hlf, h0, h1]
  · unfold loggerLog printLogMessage
    rw [hsplit, he]
    exact hw2
  · unfold loggerLog printLogMessage
    rw [hsplit, he]
  · refine ⟨e, ?_⟩
    unfold loggerLog printLogMessage
    rw [hsplit, he]

/-- Witness for C7 on the reachable world whose format was set to 99
through `Configuration.SetDefaultFormat`. -/
theorem unknown_format_c7_w :
    ((writeToFile none (setDefaultFormatW 99 (setLogFile none initialWorld ("x.log") 0).2)
        (createLogMessage (Logger.mk ("api")) ("INFO") ("boot")
          (GoTime.mk 2024 1 2 3 4 5))).1.isSome = true) ∧
    (∃ e, (loggerLog (Logger.mk ("api")) ("INFO") ("boot") (GoTime.mk 2024 1 2 3 4 5) none
        (setDefaultFormatW 99 (setLogFile none initialWorld ("x.log") 0).2)).2.errStream =
        ["ORCHID FILE ERROR: " ++ e]) := by
  have h := unknown_format_c7
    (setDefaultFormatW 99 (setLogFile none initialWorld ("x.log") 0).2)
    (Logger.mk ("api")) ("INFO") ("boot") (GoTime.mk 2024 1 2 3 4 5) none
    (by decide) (by decide) (by decide)
  exact ⟨h.1, h.2.2.2.2.2⟩

/-! ## Claim C9: console line layout -/

/-- Helper: the console output of a dispatch is always the single
rendered line, whatever the file mirror did. -/
theorem printLog_console (we : Option String) (w : World) (msg : LogMsg) :
    (printLogMessage we w msg).2.console = [consoleRender w.cfg.enableColors msg] := by
  unfold printLogMessage
  rcases hq : writeToFile we w msg with ⟨a, b⟩
  cases a <;> rfl

/-- Modelled from the spec's words for comparison: the console line
with module and severity LEFT-padded (spaces before the content) to 20
and 6 characters. -/
def padLeftSpec (width : Nat) (s : String) : String :=
  spacesStr (width - s.data.length) ++ s

/-- Modelled from the spec's words for comparison: reset code, color
code, left-padded module and severity, reset code, text, as
space-separated tokens. -/
def specConsoleLineLeftPad (msg : LogMsg) : String :=
  COLOR_RESET ++ " " ++ colorFor msg.Severity ++ " " ++
    (padLeftSpec 20 msg.Module ++ " " ++ padLeftSpec 6 msg.Severity) ++ " " ++
    COLOR_RESET ++ " " ++ msg.Text

/-- Counterexample to C9 as stated: the code pads the module and the
severity on the RIGHT (Go `%-20s %-6s`, left-justification), so the
rendered line differs from the left-padded line of the spec. -/
theorem console_layout_counter_c9 :
    consoleRender true (LogMsg.mk ("INFO") ("hello") ("api") (GoTime.mk 2024 1 2 3 4 5)) ≠
    specConsoleLineLeftPad (LogMsg.mk ("INFO") ("hello") ("api") (GoTime.mk 2024 1 2 3 4 5)) := by
  decide

/-- C9 amended: with colors enabled the dispatched console line is the
reset code, the severity's color code, the module left-justified
(right-padded with spaces) to 20 characters followed by the severity
left-justified to 6 characters, the reset code, and the message text,
space-separated; and the six severities map to their documented color
codes. -/
theorem console_layout_amended_c9 (w : World) (l : Logger) (sev text : String) (tm : GoTime)
    (we : Option String) (hcolors : w.cfg.enableColors = true) :
    (loggerLog l sev text tm we w).2.console =
      [COLOR_RESET ++ " " ++ colorFor sev ++ " " ++
        ((l.module ++ spacesStr (20 - l.module.data.length)) ++ " " ++
         (sev ++ spacesStr (6 - sev.data.length))) ++ " " ++
        COLOR_RESET ++ " " ++ text] ∧
    colorFor ("INFO") = COLOR_INFO ∧ colorFor ("OK") = COLOR_OK ∧
    colorFor ("WARN") = COLOR_WARN ∧ colorFor ("ERROR") = COLOR_ERROR ∧
    colorFor ("FATAL") = COLOR_FATAL ∧ colorFor ("DEBUG") = COLOR_DEBUG := by
  refine ⟨?_, rfl, rfl, rfl, rfl, rfl, rfl⟩
  unfold loggerLog
  rw [printLog_console, hcolors]
  simp [consoleRender, metadataOf, fmtMinus, createLogMessage]

/-- Witness for the amended C9 on a concrete colored world. -/
theorem console_layout_amended_c9_w :
    (loggerLog (Logger.mk ("api")) ("INFO") ("hello") (GoTime.mk 2024 1 2 3 4 5) none
      initialWorld).2.console =
      [COLOR_RESET ++ " " ++ colorFor ("INFO") ++ " " ++
        (("api" ++ spacesStr (20 - ("api").data.length)) ++ " " ++
         (("INFO") ++ spacesStr (6 - ("INFO").data.length))) ++ " " ++
        COLOR_RESET ++ " " ++ "hello"] := by
  exact (console_layout_amended_c9 initialWorld (Logger.mk ("api")) ("INFO") ("hello")
    (GoTime.mk 2024 1 2 3 4 5) none rfl).1

/-! ## Claim C10: the module-name invariant -/

/-- Helper: the head surviving a `dropWhile` fails the predicate. -/
theorem dwHeadFalse (p : Char → Bool) :
    ∀ (l : List Char) (c : Char) (t : List Char),
      List.dropWhile p l = c :: t → p c = false := by
  intro l
  induction l with
  | nil => intro c t h; simp [List.dropWhile] at h
  | cons x xs ih =>
    intro c t h
    by_cases hx : p x
    · rw [List.dropWhile_cons_of_pos hx] at h
      exact ih c t h
    · rw [List.dropWhile_cons_of_neg hx] at h
      cases h
      simpa using hx

/-- Helper: dropping from a list ending in a non-matching element
keeps that final element. -/
theorem dwEndKept (p : Char → Bool) (c : Char) (hc : p c = false) :
    ∀ (xs : List Char), ∃ ys, List.dropWhile p (xs ++ [c]) = ys ++ [c] := by
  intro xs
  induction xs with
  | nil => exact ⟨[], by simp [List.dropWhile, hc]⟩
  | cons x xs ih =>
    by_cases hx : p x
    · obtain ⟨ys, hy⟩ := ih
      exact ⟨ys, by rw [List.cons_append, List.dropWhile_cons_of_pos hx]; exact hy⟩
    · exact ⟨x :: xs, by rw [List.cons_append, List.dropWhile_cons_of_neg hx]⟩

/-- Trimming is idempotent. -/
theorem trimList_idem (l : List Char) : trimList (trimList l) = trimList l := by
  unfold trimList
  cases hl1 : l.dropWhile goIsSpace with
  | nil => simp
  | cons c t =>
    have hc : goIsSpace c = false := dwHeadFalse goIsSpace l c t hl1
    obtain ⟨ys, hy⟩ := dwEndKept goIsSpace c hc t.reverse
    have h2 : (List.dropWhile goIsSpace (c :: t).reverse).reverse = c :: ys.reverse := by
      rw [List.reverse_cons, hy, List.reverse_append]
      simp
    rw [h2]
    have h4 : List.dropWhile goIsSpace (c :: ys.reverse) = c :: ys.reverse :=
      List.dropWhile_cons_of_neg (by simp [hc])
    rw [h4, List.reverse_cons, List.reverse_reverse]
    have h3 : List.dropWhile goIsSpace (ys ++ [c]) = ys ++ [c] := by
      cases hyc : ys ++ [c] with
      | nil => simp at hyc
      | cons d u =>
        have hd := dwHeadFalse goIsSpace (t.reverse ++ [c]) d u (hy.trans hyc)
        exact List.dropWhile_cons_of_neg (by simp [hd])
    rw [h3, List.reverse_append]
    simp

/-- `strings.TrimSpace` is idempotent. -/
theorem goTrimSpace_idem (s : String) : goTrimSpace (goTrimSpace s) = goTrimSpace s := by
  unfold goTrimSpace
  rw [show (String.mk (trimList s.data)).data = trimList s.data from rfl, trimList_idem]

/-- The invariant the spec states for module names. -/
def moduleValid (m : String) : Prop :=
  goTrimSpace m = m ∧ m ≠ "" ∧ goLen m ≤ 50

/-- Operations a caller can perform on one logger after construction. -/
inductive LoggerOp where
  | reinit (name : String)
  | emit (sev text : String) (tm : GoTime) (we : Option String)

/-- Effect of one operation on the logger's own state: only a
successful re-initialization changes the module. -/
def loggerStep (l : Logger) : LoggerOp → Logger
  | LoggerOp.reinit n => (loggerInit l n).2
  | LoggerOp.emit _ _ _ _ => l

/-- A logger after a sequence of operations. -/
def loggerRun (l : Logger) (ops : List LoggerOp) : Logger :=
  ops.foldl loggerStep l

/-- Helper: a successful `Init` establishes the module invariant. -/
theorem loggerInit_valid (l : Logger) (m : String) (h : (loggerInit l m).1 = none) :
    moduleValid ((loggerInit l m).2).module := by
  unfold loggerInit at *
  unfold moduleValid
  by_cases h1 : goTrimSpace m = ""
  · simp [h1] at h
  · by_cases h2 : goLen (goTrimSpace m) > 50
    · simp [h1, h2] at h
    · rw [if_neg h1, if_neg h2]
      refine ⟨goTrimSpace_idem m, h1, ?_⟩
      show goLen (goTrimSpace m) ≤ 50
      omega

/-- Helper: every operation preserves the module invariant. -/
theorem loggerStep_valid (l : Logger) (op : LoggerOp) (h : moduleValid l.module) :
    moduleValid (loggerStep l op).module := by
  cases op with
  | emit sev text tm we => exact h
  | reinit n =>
    show moduleValid ((loggerInit l n).2).module
    by_cases hn : (loggerInit l n).1 = none
    · exact loggerInit_valid l n hn
    · unfold loggerInit at *
      by_cases h1 : goTrimSpace n = ""
      · simpa [h1] using h
      · by_cases h2 : goLen (goTrimSpace n) > 50
        · simpa [h1, h2] using h
        · simp [h1, h2] at hn

/-- Helper: the invariant survives any operation sequence. -/
theorem loggerRun_valid (l : Logger) (ops : List LoggerOp) (h : moduleValid l.module) :
    moduleValid (loggerRun l ops).module := by
  induction ops generalizing l with
  | nil => exact h
  | cons op rest ih => exact ih (loggerStep l op) (loggerStep_valid l op h)

/-- Counterexample to C10 as stated: the Go zero value `var l Logger`
is observable through the public interface without any `Init`, and a
level function on it emits a record whose module is the empty string —
not a trimmed non-empty name. -/
theorem module_invariant_counter_c10 :
    ¬ moduleValid ((createLogMessage (Logger.mk ("")) ("INFO") ("boot")
      (GoTime.mk 2024 1 2 3 4 5)).Module) := by
  intro h
  exact h.2.1 rfl

/-- C10 amended: every logger whose `Init` has succeeded once keeps a
trimmed, non-empty module of at most 50 bytes through any further
sequence of re-initializations and emissions (a failing re-`Init`
leaves the module untouched), and every record it emits carries
exactly that module name. -/
theorem module_invariant_amended_c10 (l0 : Logger) (n : String) (ops : List LoggerOp)
    (h : (loggerInit l0 n).1 = none) :
    moduleValid (loggerRun ((loggerInit l0 n).2) ops).module ∧
    (∀ (sev text : String) (tm : GoTime),
      (createLogMessage (loggerRun ((loggerInit l0 n).2) ops) sev text tm).Module =
        (loggerRun ((loggerInit l0 n).2) ops).module) := by
  exact ⟨loggerRun_valid _ ops (loggerInit_valid l0 n h), fun _ _ _ => rfl⟩

/-- Witness for the amended C10: a validated init followed by a failing
re-init and an emission. -/
theorem module_invariant_amended_c10_w :
    moduleValid (loggerRun ((loggerInit (Logger.mk ("")) ("api")).2)
      [LoggerOp.reinit ("   "),
       LoggerOp.emit ("INFO") ("x") (GoTime.mk 2024 1 2 3 4 5) none]).module := by
  exact (module_invariant_amended_c10 (Logger.mk ("")) ("api")
    [LoggerOp.reinit ("   "),
     LoggerOp.emit ("INFO") ("x") (GoTime.mk 2024 1 2 3 4 5) none] (by decide)).1

/-! ## Claim C5: the handle invariant

Reachable configurations are those produced from the initial world by
any sequence of configuration operations and dispatches.  The event
ledger lets us account for open handles: scanning it, the set of
opened-but-not-yet-closed identities never holds more than one
element, and always matches the handle stored in the configuration. -/

/-- Operations the public interface can perform on the shared
configuration. -/
inductive ConfigOp where
  | setFile (filePath : String) (format : Int) (openRes : Option String)
  | setDefault (filePath : String) (openRes : Option String)
  | closeCfg (closeErr : Option String)
  | resetCfg
  | setFmt (f : Int)
  | setColors (b : Bool)
  | emit (l : Logger) (sev text : String) (tm : GoTime) (we : Option String)

/-- Effect of one operation on the shared world. -/
def applyOp (w : World) : ConfigOp → World
  | ConfigOp.setFile p f r => (setLogFile r w p f).2
  | ConfigOp.setDefault p r => (setDefaultFile r w p).2
  | ConfigOp.closeCfg e => (configClose e w).2
  | ConfigOp.resetCfg => configReset w
  | ConfigOp.setFmt f => setDefaultFormatW f w
  | ConfigOp.setColors b => setEnableColorsW b w
  | ConfigOp.emit l sev text tm we => (loggerLog l sev text tm we w).1

/-- World reached from the initial configuration by a sequence of
operations. -/
def runOps (ops : List ConfigOp) : World :=
  ops.foldl applyOp initialWorld

/-- Identities of the handles the configuration currently stores. -/
def handleIds : Option FileHandle → List Nat
  | none => []
  | some h => [h.hid]

/-- One scan step over the event ledger: an open adds the identity, a
close removes it. -/
def stepLive (acc : List Nat) : FsEvent → List Nat
  | FsEvent.opened i => i :: acc
  | FsEvent.closed i => acc.erase i

/-- Scanning the ledger from a starting set, the live-handle count
never exceeds one at any point. -/
def liveBoundedFrom (acc : List Nat) : List FsEvent → Bool
  | [] => true
  | e :: rest =>
    decide ((stepLive acc e).length ≤ 1) && liveBoundedFrom (stepLive acc e) rest

/-- Splitting a bounded scan at an append boundary. -/
theorem liveBoundedFrom_append (p : List FsEvent) :
    ∀ (acc : List Nat) (q : List FsEvent),
      liveBoundedFrom acc (p ++ q) =
        (liveBoundedFrom acc p && liveBoundedFrom (p.foldl stepLive acc) q) := by
  induction p with
  | nil => intro acc q; simp [liveBoundedFrom]
  | cons e p ih =>
    intro acc q
    rw [List.cons_append]
    show (decide ((stepLive acc e).length ≤ 1) && liveBoundedFrom (stepLive acc e) (p ++ q))
      = _
    rw [ih (stepLive acc e) q, ← Bool.and_assoc]
    rfl

/-- The inductive invariant: the ledger scan matches the stored
handle, stays bounded by one live handle throughout, the handle is
present exactly when a non-empty path was successfully opened, and a
stored handle's path is the configured path. -/
def InvW (w : World) : Prop :=
  List.foldl stepLive [] w.events = handleIds w.cfg.logFile ∧
  liveBoundedFrom [] w.events = true ∧
  (w.cfg.logFile.isSome = true ↔ (w.cfg.defaultFile ≠ "" ∧ w.lastOpenOk = true)) ∧
  (∀ h, w.cfg.logFile = some h → h.path = w.cfg.defaultFile)

/-- The invariant holds initially. -/
theorem InvW_initial : InvW initialWorld := by
  refine ⟨rfl, rfl, ?_, ?_⟩
  · simp [initialWorld]
  · intro h hh
    simp [initialWorld] at hh

/-- Ledger and field accounting for the close-if-open compound. -/
theorem closeHandleOnly_spec (w : World) (hw : InvW w) :
    List.foldl stepLive [] (closeHandleOnly w).events = [] ∧
    liveBoundedFrom [] (closeHandleOnly w).events = true ∧
    (closeHandleOnly w).cfg.logFile = none ∧
    (closeHandleOnly w).cfg.defaultFile = w.cfg.defaultFile ∧
    (closeHandleOnly w).cfg.defaultFormat = w.cfg.defaultFormat ∧
    (closeHandleOnly w).cfg.enableColors = w.cfg.enableColors ∧
    (closeHandleOnly w).nextHid = w.nextHid ∧
    (closeHandleOnly w).fsCalls = w.fsCalls ∧
    (closeHandleOnly w).lastOpenOk = w.lastOpenOk := by
  obtain ⟨h1, h2, h3, h4⟩ := hw
  unfold closeHandleOnly
  cases hlf : w.cfg.logFile with
  | none =>
    rw [hlf] at h1
    exact ⟨h1, h2, hlf, rfl, rfl, rfl, rfl, rfl, rfl⟩
  | some h =>
    rw [hlf] at h1
    refine ⟨?_, ?_, rfl, rfl, rfl, rfl, rfl, rfl, rfl⟩
    · show List.foldl stepLive [] (w.events ++ [FsEvent.closed h.hid]) = []
      rw [List.foldl_append, h1]
      show [h.hid].erase h.hid = []
      simp
    · show liveBoundedFrom [] (w.events ++ [FsEvent.closed h.hid]) = true
      rw [liveBoundedFrom_append, h2, h1]
      show (true && (decide (([h.hid].erase h.hid).length ≤ 1) && true)) = true
      simp

/-- `SetDefaultFile` preserves the invariant for every oracle
outcome. -/
theorem setDefaultFile_inv (r : Option String) (w : World) (p : String) (hw : InvW w) :
    InvW (setDefaultFile r w p).2 := by
  obtain ⟨hc1, hc2, hc3, hc4, hc5, hc6, hc7, hc8, hc9⟩ := closeHandleOnly_spec w hw
  unfold InvW setDefaultFile
  by_cases hp : p = ""
  · subst hp
    simp only [if_pos rfl]
    refine ⟨?_, ?_, ?_, ?_⟩
    · simpa [handleIds, hc3] using hc1
    · simpa using hc2
    · simp [hc3]
    · intro h hh
      simp [hc3] at hh
  · rw [if_neg hp]
    cases r with
    | none =>
      refine ⟨?_, ?_, ?_, ?_⟩
      · show List.foldl stepLive []
            ((closeHandleOnly w).events ++ [FsEvent.opened (closeHandleOnly w).nextHid]) = _
        rw [List.foldl_append, hc1]
        rfl
      · show liveBoundedFrom []
            ((closeHandleOnly w).events ++ [FsEvent.opened (closeHandleOnly w).nextHid]) = true
        rw [liveBoundedFrom_append, hc2, hc1]
        rfl
      · simp [hp]
      · intro h hh
        simp at hh
        rw [← hh]
    | some e =>
      refine ⟨?_, ?_, ?_, ?_⟩
      · simpa [handleIds, hc3] using hc1
      · simpa using hc2
      · simp [hc3, hp]
      · intro h hh
        simp [hc3] at hh

/-- `Close` preserves the invariant for every oracle outcome. -/
theorem configClose_inv (e : Option String) (w : World) (hw : InvW w) :
    InvW (configClose e w).2 := by
  cases hlf : w.cfg.logFile with
  | none =>
    rw [configClose_noop e w hlf]
    exact hw
  | some h =>
    obtain ⟨h1, h2, h3, h4⟩ := hw
    unfold InvW configClose
    rw [hlf] at h1 ⊢
    have he : List.foldl stepLive [] (w.events ++ [FsEvent.closed h.hid]) = [] := by
      rw [List.foldl_append, h1]
      show [h.hid].erase h.hid = []
      simp
    have hb : liveBoundedFrom [] (w.events ++ [FsEvent.closed h.hid]) = true := by
      rw [liveBoundedFrom_append, h2, h1]
      show (true && (decide (([h.hid].erase h.hid).length ≤ 1) && true)) = true
      simp
    cases e with
    | none =>
      refine ⟨by simpa [handleIds] using he, hb, by simp, fun h' hh => by simp at hh⟩
    | some e' =>
      refine ⟨by simpa [handleIds] using he, hb, by simp, fun h' hh => by simp at hh⟩

/-- `Reset` preserves the invariant. -/
theorem configReset_inv (w : World) (hw : InvW w) : InvW (configReset w) := by
  obtain ⟨hc1, hc2, hc3, hc4, hc5, hc6, hc7, hc8, hc9⟩ := closeHandleOnly_spec w hw
  unfold InvW configReset
  refine ⟨by simpa [handleIds, hc3] using hc1, by simpa using hc2, by simp [hc3],
    fun h hh => by simp [hc3] at hh⟩

/-- `SetDefaultFormat` preserves the invariant. -/
theorem setFmt_inv (f : Int) (w : World) (hw : InvW w) : InvW (setDefaultFormatW f w) := by
  obtain ⟨h1, h2, h3, h4⟩ := hw
  exact ⟨h1, h2, h3, h4⟩

/-- `SetEnableColors` preserves the invariant. -/
theorem setColors_inv (b : Bool) (w : World) (hw : InvW w) : InvW (setEnableColorsW b w) := by
  obtain ⟨h1, h2, h3, h4⟩ := hw
  exact ⟨h1, h2, h3, h4⟩

/-- A mirror attempt either leaves the world unchanged or only extends
the open handle's buffer. -/
theorem writeToFile_cases (we : Option String) (w : World) (msg : LogMsg) :
    (writeToFile we w msg).2 = w ∨
    ∃ h s, w.cfg.logFile = some h ∧ (writeToFile we w msg).2 = putBuf w h s := by
  unfold writeToFile
  split
  · exact Or.inl rfl
  · split
    · exact Or.inl rfl
    · rename_i h hsome
      split
      · split
        · exact Or.inl rfl
        · exact Or.inr ⟨h, txtEncode msg ++ "\n", hsome, rfl⟩
      · split
        · split
          · exact Or.inl rfl
          · rename_i jsonData hm
            split
            · exact Or.inl rfl
            · exact Or.inr ⟨h, jsonData ++ "\n", hsome, rfl⟩
        · exact Or.inl rfl

/-- Extending the buffer of the stored handle preserves the
invariant. -/
theorem putBuf_inv (w : World) (h : FileHandle) (s : String) (hw : InvW w)
    (hlf : w.cfg.logFile = some h) : InvW (putBuf w h s) := by
  obtain ⟨h1, h2, h3, h4⟩ := hw
  unfold InvW putBuf
  refine ⟨?_, h2, ?_, ?_⟩
  · rw [hlf] at h1
    simpa [handleIds] using h1
  · rw [hlf] at h3
    simpa using h3
  · intro h' hh
    simp at hh
    rw [← hh]
    exact h4 h hlf

/-- A full dispatch preserves the invariant. -/
theorem emit_inv (l : Logger) (sev text : String) (tm : GoTime) (we : Option String)
    (w : World) (hw : InvW w) : InvW (loggerLog l sev text tm we w).1 := by
  have hpl : (loggerLog l sev text tm we w).1 =
      (writeToFile we w (createLogMessage l sev text tm)).2 := by
    unfold loggerLog printLogMessage
    rcases hq : writeToFile we w (createLogMessage l sev text tm) with ⟨a, b⟩
    cases a <;> rfl
  rw [hpl]
  rcases writeToFile_cases we w (createLogMessage l sev text tm) with hcase | ⟨h, s, hlf, heq⟩
  · rw [hcase]
    exact hw
  · rw [heq]
    exact putBuf_inv w h s hw hlf

/-- `SetLogFile` preserves the invariant. -/
theorem setLogFile_inv (r : Option String) (w : World) (p : String) (f : Int)
    (hw : InvW w) : InvW (setLogFile r w p f).2 := by
  unfold setLogFile
  by_cases hf : f < 0 ∨ 1 < f
  · rw [if_pos hf]
    exact hw
  · rw [if_neg hf]
    cases hpe : setLogFilePathErr p with
    | some e => exact hw
    | none =>
      rcases hs : setDefaultFile r w p with ⟨a, w1⟩
      have hw1 : InvW w1 := by
        have hall := setDefaultFile_inv r w p hw
        rw [hs] at hall
        exact hall
      cases a with
      | some e => exact hw1
      | none => exact setFmt_inv f w1 hw1

/-- The invariant holds along every operation sequence. -/
theorem InvW_run (ops : List ConfigOp) : ∀ w, InvW w → InvW (ops.foldl applyOp w) := by
  induction ops with
  | nil => exact fun w hw => hw
  | cons op rest ih =>
    intro w hw
    refine ih (applyOp w op) ?_
    cases op with
    | setFile p f r => exact setLogFile_inv r w p f hw
    | setDefault p r => exact setDefaultFile_inv r w p hw
    | closeCfg e => exact configClose_inv e w hw
    | resetCfg => exact configReset_inv w hw
    | setFmt f => exact setFmt_inv f w hw
    | setColors b => exact setColors_inv b w hw
    | emit l sev text tm we => exact emit_inv l sev text tm we w hw

/-- C5: after every sequence of configuration operations, scanning the
open/close ledger never shows more than one live handle at any point
(every install closed its predecessor first), the live set matches the
stored handle, the handle is present exactly when the configured path
is non-empty and its open succeeded, and a stored handle belongs to
the configured path. -/
theorem handle_invariant_c5 (ops : List ConfigOp) :
    liveBoundedFrom [] (runOps ops).events = true ∧
    List.foldl stepLive [] (runOps ops).events = handleIds (runOps ops).cfg.logFile ∧
    ((runOps ops).cfg.logFile.isSome = true ↔
      ((runOps ops).cfg.defaultFile ≠ "" ∧ (runOps ops).lastOpenOk = true)) ∧
    (∀ h, (runOps ops).cfg.logFile = some h → h.path = (runOps ops).cfg.defaultFile) := by
  obtain ⟨h1, h2, h3, h4⟩ := InvW_run ops initialWorld InvW_initial
  exact ⟨h2, h1, h3, h4⟩

/-- Witness for C5 on a concrete sequence that replaces an open file. -/
theorem handle_invariant_c5_w :
    liveBoundedFrom [] (runOps [ConfigOp.setDefault ("a.log") none,
      ConfigOp.setDefault ("b.log") none]).events = true ∧
    (FileHandle.mk 1 ("b.log") ("")).path =
      (runOps [ConfigOp.setDefault ("a.log") none,
        ConfigOp.setDefault ("b.log") none]).cfg.defaultFile := by
  have h := handle_invariant_c5 [ConfigOp.setDefault ("a.log") none,
    ConfigOp.setDefault ("b.log") none]
  exact ⟨h.1, h.2.2.2 (FileHandle.mk 1 ("b.log") ("")) (by decide)⟩

/-! ## Claim C2: file lines and the JSON round trip

We first characterize the escape of a single character, then prove
that the decoder undoes `escList`, that literal chunks are consumed
exactly, and finally the round trip for the whole object line. -/

/-- Hexadecimal digits decode to their value. -/
theorem hexVal_hexCh : ∀ k, k < 16 → hexVal (hexCh k) = some k := by decide

/-- Every character escapes to one of three shapes: itself (and then
it is neither a quote nor a backslash), a two-character escape that
`simpleEsc` maps back, or a `u`-escape whose hex value denotes the
character. -/
theorem escChar_shape (c : Char) :
    (escChar c = [c] ∧ c ≠ '"' ∧ c ≠ '\\') ∨
    (∃ e, escChar c = ['\\', e] ∧ e ≠ 'u' ∧ simpleEsc e = some c) ∨
    (∃ a b d f x y z t, escChar c = ['\\', 'u', a, b, d, f] ∧
      hexVal a = some x ∧ hexVal b = some y ∧ hexVal d = some z ∧ hexVal f = some t ∧
      Char.ofNat (4096 * x + 256 * y + 16 * z + t) = c) := by
  by_cases h1 : c = '"'
  · subst h1; exact Or.inr (Or.inl ⟨'"', by decide, by decide, by decide⟩)
  by_cases h2 : c = '\\'
  · subst h2; exact Or.inr (Or.inl ⟨'\\', by decide, by decide, by decide⟩)
  by_cases h3 : c = '\n'
  · subst h3; exact Or.inr (Or.inl ⟨'n', by decide, by decide, by decide⟩)
  by_cases h4 : c = '\r'
  · subst h4; exact Or.inr (Or.inl ⟨'r', by decide, by decide, by decide⟩)
  by_cases h5 : c = '\t'
  · subst h5; exact Or.inr (Or.inl ⟨'t', by decide, by decide, by decide⟩)
  by_cases h6 : c.toNat < 0x20
  · refine Or.inr (Or.inr ⟨'0', '0', hexCh (c.toNat / 16), hexCh (c.toNat % 16),
      0, 0, c.toNat / 16, c.toNat % 16, ?_, by decide, by decide,
      hexVal_hexCh _ (by omega), hexVal_hexCh _ (by omega), ?_⟩)
    · unfold escChar
      rw [if_neg h1, if_neg h2, if_neg h3, if_neg h4, if_neg h5, if_pos h6]
    · have hnv : 4096 * 0 + 256 * 0 + 16 * (c.toNat / 16) + c.toNat % 16 = c.toNat := by
        omega
      rw [hnv, Char.ofNat_toNat]
  by_cases h7 : c = '<'
  · subst h7
    exact Or.inr (Or.inr ⟨'0', '0', '3', 'c', 0, 0, 3, 12, by decide, by decide, by decide,
      by decide, by decide, by decide⟩)
  by_cases h8 : c = '>'
  · subst h8
    exact Or.inr (Or.inr ⟨'0', '0', '3', 'e', 0, 0, 3, 14, by decide, by decide, by decide,
      by decide, by decide, by decide⟩)
  by_cases h9 : c = '&'
  · subst h9
    exact Or.inr (Or.inr ⟨'0', '0', '2', '6', 0, 0, 2, 6, by decide, by decide, by decide,
      by decide, by decide, by decide⟩)
  by_cases h10 : c.toNat = 0x2028
  · refine Or.inr (Or.inr ⟨'2', '0', '2', '8', 2, 0, 2, 8, ?_, by decide, by decide,
      by decide, by decide, ?_⟩)
    · unfold escChar
      rw [if_neg h1, if_neg h2, if_neg h3, if_neg h4, if_neg h5, if_neg h6, if_neg h7,
        if_neg h8, if_neg h9, if_pos h10]
    · have hnv : 4096 * 2 + 256 * 0 + 16 * 2 + 8 = c.toNat := by omega
      rw [hnv, Char.ofNat_toNat]
  by_cases h11 : c.toNat = 0x2029
  · refine Or.inr (Or.inr ⟨'2', '0', '2', '9', 2, 0, 2, 9, ?_, by decide, by decide,
      by decide, by decide, ?_⟩)
    · unfold escChar
      rw [if_neg h1, if_neg h2, if_neg h3, if_neg h4, if_neg h5, if_neg h6, if_neg h7,
        if_neg h8, if_neg h9, if_neg h10, if_pos h11]
    · have hnv : 4096 * 2 + 256 * 0 + 16 * 2 + 9 = c.toNat := by omega
      rw [hnv, Char.ofNat_toNat]
  · refine Or.inl ⟨?_, h1, h2⟩
    unfold escChar
    rw [if_neg h1, if_neg h2, if_neg h3, if_neg h4, if_neg h5, if_neg h6, if_neg h7,
      if_neg h8, if_neg h9, if_neg h10, if_neg h11]

/-- Decoder step: closing quote. -/
theorem decodeStr_quote (r : List Char) : decodeStr ('"' :: r) = some ([], r) := by
  rw [decodeStr.eq_def]
  simp

/-- Decoder step: plain character. -/
theorem decodeStr_plain (c : Char) (r s r' : List Char)
    (hq : c ≠ '"') (hb : c ≠ '\\') (h : decodeStr r = some (s, r')) :
    decodeStr (c :: r) = some (c :: s, r') := by
  rw [decodeStr.eq_def]
  simp [hq, hb, h]

/-- Decoder step: two-character escape. -/
theorem decodeStr_simple (e : Char) (r s r' : List Char) (ch : Char)
    (hu : e ≠ 'u') (hs : simpleEsc e = some ch) (h : decodeStr r = some (s, r')) :
    decodeStr ('\\' :: e :: r) = some (ch :: s, r') := by
  rw [decodeStr.eq_def]
  simp [hu, hs, h]

/-- Decoder step: `u`-escape. -/
theorem decodeStr_hex (a b d f : Char) (r s r' : List Char) (x y z t : Nat)
    (ha : hexVal a = some x) (hb : hexVal b = some y) (hd : hexVal d = some z)
    (hf : hexVal f = some t) (h : decodeStr r = some (s, r')) :
    decodeStr ('\\' :: 'u' :: a :: b :: d :: f :: r) =
      some (Char.ofNat (4096 * x + 256 * y + 16 * z + t) :: s, r') := by
  rw [decodeStr.eq_def]
  simp [ha, hb, hd, hf, h]

/-- The decoder undoes the encoder on a string body followed by its
closing quote. -/
theorem decode_escList (s : List Char) :
    ∀ r, decodeStr (escList s ++ '"' :: r) = some (s, r) := by
  induction s with
  | nil => intro r; exact decodeStr_quote r
  | cons c cs ih =>
    intro r
    rw [show escList (c :: cs) = escChar c ++ escList cs from rfl, List.append_assoc]
    rcases escChar_shape c with ⟨h1, hq, hb⟩ | ⟨e, he, hu, hs⟩ |
      ⟨a, b, d, f, x, y, z, t, hesc, hxa, hxb, hxd, hxf, hofn⟩
    · rw [h1]
      exact decodeStr_plain c _ cs r hq hb (ih r)
    · rw [he]
      exact decodeStr_simple e _ cs r c hu hs (ih r)
    · rw [hesc]
      have hstep := decodeStr_hex a b d f _ cs r x y z t hxa hxb hxd hxf (ih r)
      rw [hofn] at hstep
      exact hstep

/-- Consuming an expected literal from its own concatenation. -/
theorem dropLit_self (l : List Char) : ∀ r, dropLit l (l ++ r) = some r := by
  induction l with
  | nil => intro r; rfl
  | cons c cs ih =>
    intro r
    show dropLit (c :: cs) (c :: (cs ++ r)) = some r
    simp [dropLit, ih r]

/-- A list of unescaped characters encodes to itself. -/
theorem escList_plain (l : List Char) (h : ∀ c ∈ l, escChar c = [c]) : escList l = l := by
  induction l with
  | nil => rfl
  | cons c cs ih =>
    show escChar c ++ escList cs = c :: cs
    rw [h c (by simp), ih (fun d hd => h d (by simp [hd]))]
    rfl

/-- Decimal digit characters stay in the digit range. -/
theorem digCh_range (k : Nat) : 48 ≤ (digCh k).toNat ∧ (digCh k).toNat ≤ 57 := by
  match k with
  | 0 => decide
  | 1 => decide
  | 2 => decide
  | 3 => decide
  | 4 => decide
  | 5 => decide
  | 6 => decide
  | 7 => decide
  | 8 => decide
  | n + 9 =>
    show 48 ≤ ('9').toNat ∧ ('9').toNat ≤ 57
    decide

/-- Hexadecimal digit characters are never a newline. -/
theorem hexCh_ne_nl (k : Nat) : hexCh k ≠ '\n' := by
  match k with
  | 0 => decide
  | 1 => decide
  | 2 => decide
  | 3 => decide
  | 4 => decide
  | 5 => decide
  | 6 => decide
  | 7 => decide
  | 8 => decide
  | 9 => decide
  | 10 => decide
  | 11 => decide
  | 12 => decide
  | 13 => decide
  | 14 => decide
  | n + 15 =>
    show ('f' : Char) ≠ '\n'
    decide

/-- All digits produced by the fuelled renderer stay in the digit
range. -/
theorem natDigsFuel_range (fuel : Nat) : ∀ n c, c ∈ natDigsFuel fuel n →
    48 ≤ c.toNat ∧ c.toNat ≤ 57 := by
  induction fuel with
  | zero =>
    intro n c hc
    simp [natDigsFuel] at hc
    subst hc
    exact digCh_range n
  | succ fuel ih =>
    intro n c hc
    by_cases h10 : n < 10
    · simp [natDigsFuel, h10] at hc
      subst hc
      exact digCh_range n
    · simp [natDigsFuel, h10] at hc
      rcases hc with h | h
      · exact ih (n / 10) c h
      · subst h
        exact digCh_range (n % 10)

/-- All digits of a number render in the digit range. -/
theorem natDigs_range (n : Nat) : ∀ c ∈ natDigs n, 48 ≤ c.toNat ∧ c.toNat ≤ 57 :=
  fun c hc => natDigsFuel_range n n c hc

/-- All characters of a zero-padded number are in the digit range. -/
theorem padNat_range (width n : Nat) : ∀ c ∈ padNat width n,
    48 ≤ c.toNat ∧ c.toNat ≤ 57 := by
  intro c hc
  unfold padNat at hc
  rcases List.mem_append.mp hc with h | h
  · have hz := List.eq_of_mem_replicate h
    subst hz
    decide
  · exact natDigs_range n c h

/-- Character classes occurring in the two time layouts. -/
def timeChar (c : Char) : Prop :=
  (48 ≤ c.toNat ∧ c.toNat ≤ 57) ∨ c = '-' ∨ c = ':' ∨ c = 'T' ∨ c = 'Z' ∨ c = ' '

/-- Every character of the RFC3339 rendering is a time character. -/
theorem rfcTime_chars (t : GoTime) : ∀ c ∈ (rfcTime t).data, timeChar c := by
  intro c hc
  unfold rfcTime at hc
  simp only [List.mem_append, List.mem_singleton] at hc
  unfold timeChar
  repeat' rcases hc with hc | hc
  all_goals first
    | exact Or.inl (padNat_range _ _ c hc)
    | (subst hc; simp)
    | simp
    | decide
    | simp
    | decide

/-- Every character of the text-layout rendering is a time character. -/
theorem txtTime_chars (t : GoTime) : ∀ c ∈ (txtTime t).data, timeChar c := by
  intro c hc
  unfold txtTime at hc
  simp only [List.mem_append, List.mem_singleton] at hc
  unfold timeChar
  repeat' rcases hc with hc | hc
  all_goals first
    | exact Or.inl (padNat_range _ _ c hc)
    | (subst hc; simp)
    | simp
    | decide

/-- Time characters pass through the JSON escape untouched and are
never a newline. -/
theorem escChar_time (c : Char) (h : timeChar c) : escChar c = [c] ∧ c ≠ '\n' := by
  rcases h with hr | h | h | h | h | h
  · have hq1 : ¬ (c = '"') := fun hx => by rw [hx] at hr; exact absurd hr (by decide)
    have hq2 : ¬ (c = '\\') := fun hx => by rw [hx] at hr; exact absurd hr (by decide)
    have hq3 : ¬ (c = '\n') := fun hx => by rw [hx] at hr; exact absurd hr (by decide)
    have hq4 : ¬ (c = '\r') := fun hx => by rw [hx] at hr; exact absurd hr (by decide)
    have hq5 : ¬ (c = '\t') := fun hx => by rw [hx] at hr; exact absurd hr (by decide)
    have hq6 : ¬ (c.toNat < 0x20) := by omega
    have hq7 : ¬ (c = '<') := fun hx => by rw [hx] at hr; exact absurd hr (by decide)
    have hq8 : ¬ (c = '>') := fun hx => by rw [hx] at hr; exact absurd hr (by decide)
    have hq9 : ¬ (c = '&') := fun hx => by rw [hx] at hr; exact absurd hr (by decide)
    have hq10 : ¬ (c.toNat = 0x2028) := by omega
    have hq11 : ¬ (c.toNat = 0x2029) := by omega
    refine ⟨?_, hq3⟩
    unfold escChar
    rw [if_neg hq1, if_neg hq2, if_neg hq3, if_neg hq4, if_neg hq5, if_neg hq6,
      if_neg hq7, if_neg hq8, if_neg hq9, if_neg hq10, if_neg hq11]
  · subst h; exact ⟨by decide, by decide⟩
  · subst h; exact ⟨by decide, by decide⟩
  · subst h; exact ⟨by decide, by decide⟩
  · subst h; exact ⟨by decide, by decide⟩
  · subst h; exact ⟨by decide, by decide⟩

/-- The escape of any character never contains a newline. -/
theorem escChar_noNL (c : Char) : '\n' ∉ escChar c := by
  by_cases hnl : c = '\n'
  · subst hnl; decide
  · rcases escChar_shape c with ⟨h1, hq, hb⟩ | ⟨e, he, hu, hs⟩ |
      ⟨a, b, d, f, x, y, z, t, hesc, hxa, hxb, hxd, hxf, hofn⟩
    · rw [h1]
      intro hmem
      rcases List.mem_cons.mp hmem with h | h
      · exact hnl h.symm
      · exact List.not_mem_nil _ h
    · rw [he]
      intro hmem
      have he2 : e ≠ '\n' := by
        intro hx
        rw [hx] at hs
        rw [(by decide : simpleEsc '\n' = none)] at hs
        exact Option.noConfusion hs
      rcases List.mem_cons.mp hmem with h | h
      · exact absurd h (by decide)
      · rcases List.mem_cons.mp h with h2 | h2
        · exact he2 h2.symm
        · exact List.not_mem_nil _ h2
    · rw [hesc]
      intro hmem
      have hne : ∀ (g : Char) (v : Nat), hexVal g = some v → g ≠ '\n' := by
        intro g v hg hx
        rw [hx] at hg
        rw [(by decide : hexVal '\n' = none)] at hg
        exact Option.noConfusion hg
      rcases List.mem_cons.mp hmem with h | h
      · exact absurd h (by decide)
      · rcases List.mem_cons.mp h with h | h
        · exact absurd h (by decide)
        · rcases List.mem_cons.mp h with h | h
          · exact hne a x hxa h.symm
          · rcases List.mem_cons.mp h with h | h
            · exact hne b y hxb h.symm
            · rcases List.mem_cons.mp h with h | h
              · exact hne d z hxd h.symm
              · rcases List.mem_cons.mp h with h | h
                · exact hne f t hxf h.symm
                · exact List.not_mem_nil _ h

/-- The escaped body of a string never contains a newline. -/
theorem escList_noNL (l : List Char) : '\n' ∉ escList l := by
  induction l with
  | nil => simp [escList]
  | cons c cs ih =>
    show '\n' ∉ escChar c ++ escList cs
    intro hmem
    rcases List.mem_append.mp hmem with h | h
    · exact escChar_noNL c h
    · exact ih h

/-- The object line reassociated into the exact nested shape the
parser consumes: each literal chunk, each escaped body, each closing
quote. -/
def jsonEncodeL (msg : LogMsg) : List Char :=
  ("\x7b\"Severity\":\"").data ++ (escList msg.Severity.data ++
  ('"' :: ((",\"Text\":\"").data ++ (escList msg.Text.data ++
  ('"' :: ((",\"Module\":\"").data ++ (escList msg.Module.data ++
  ('"' :: ((",\"Time\":\"").data ++ ((rfcTime msg.Time).data ++
  ('"' :: ['\x7d'])))))))))))

/-- The characters of the encoded object are exactly the nested
shape. -/
theorem jsonEncode_data (msg : LogMsg) : (jsonEncode msg).data = jsonEncodeL msg := by
  unfold jsonEncode jsonEncodeL escStr
  simp only [String.data_append]
  simp [List.append_assoc]


/-- A string of unescaped characters decodes as itself. -/
theorem decode_plainList (s : List Char) (hplain : ∀ c ∈ s, escChar c = [c]) (r : List Char) :
    decodeStr (s ++ '"' :: r) = some (s, r) := by
  have h2 := decode_escList s r
  rw [escList_plain s hplain] at h2
  exact h2

/-- Round trip: the parser recovers exactly the severity, text, module
and time rendering that were encoded. -/
theorem parseJson_roundtrip (msg : LogMsg) :
    parseJsonLine (jsonEncode msg).data =
      some (msg.Severity, msg.Text, msg.Module, rfcTime msg.Time) := by
  have htdec : ∀ r, decodeStr ((rfcTime msg.Time).data ++ '"' :: r) =
      some ((rfcTime msg.Time).data, r) :=
    fun r => decode_plainList _
      (fun c hc => (escChar_time c (rfcTime_chars msg.Time c hc)).1) r
  rw [jsonEncode_data]
  unfold parseJsonLine jsonEncodeL
  simp only [dropLit_self, decode_escList, htdec, Option.bind]
  rfl

/-- A JSON object line never contains a raw newline: every member is
escaped and the time rendering is newline-free. -/
theorem jsonEncode_noNL (msg : LogMsg) : '\n' ∉ (jsonEncode msg).data := by
  rw [jsonEncode_data]
  unfold jsonEncodeL
  have hq : ('\n' : Char) ≠ '"' := by decide
  have hlit1 : '\n' ∉ ("\x7b\"Severity\":\"").data := by decide
  have hlit2 : '\n' ∉ (",\"Text\":\"").data := by decide
  have hlit3 : '\n' ∉ (",\"Module\":\"").data := by decide
  have hlit4 : '\n' ∉ (",\"Time\":\"").data := by decide
  have hrfc : '\n' ∉ (rfcTime msg.Time).data :=
    fun hmem => (escChar_time _ (rfcTime_chars msg.Time _ hmem)).2 rfl
  simp [List.mem_append, escList_noNL, hlit1, hlit2, hlit3, hlit4, hrfc, hq]

/-- The TEXT line contains no newline when neither the module, the
text nor the severity does. -/
theorem txtEncode_noNL (msg : LogMsg) (hs : '\n' ∉ msg.Severity.data)
    (hm : '\n' ∉ msg.Module.data) (ht : '\n' ∉ msg.Text.data) :
    '\n' ∉ (txtEncode msg).data := by
  unfold txtEncode
  have htm : '\n' ∉ (txtTime msg.Time).data :=
    fun hmem => (escChar_time _ (txtTime_chars msg.Time _ hmem)).2 rfl
  have ha : '\n' ∉ (" [").data := by decide
  have hb : '\n' ∉ ("] ").data := by decide
  have hc : '\n' ∉ (": ").data := by decide
  simp [String.data_append, List.mem_append, htm, ha, hb, hc, hs, hm, ht]

/-- Number of newline characters in a buffer: a buffer of well-formed
newline-terminated lines holds one per line. -/
def newlineCount (s : String) : Nat :=
  (s.data.filter (fun c => c = '\n')).length

/-- Counterexample to C2 as stated: with TEXT format, an `Info` call
whose message contains a newline appends content spanning TWO physical
lines, not exactly one. -/
theorem file_line_counter_c2 :
    (setLogFile none initialWorld ("app.log") 0).1 = none ∧
    (((loggerInfo (Logger.mk ("api")) ("a\nb") (GoTime.mk 2024 1 2 3 4 5) none
        (setLogFile none initialWorld ("app.log") 0).2).1).cfg.logFile.map
      (fun h => newlineCount h.buf)) = some 2 := by
  decide

/-- C2 amended: for a valid path, a declared format and a realistic
timestamp, `SetLogFile` followed by exactly one `Info` call appends
exactly one `Fprintln` write to the fresh file.  The written entry is
a single well-formed line — unconditionally for JSON, whose escaping
removes newlines, and for TEXT provided module and message contain no
newline (otherwise the entry spans several physical lines) — and for
JSON the line parses back to exactly the severity, text and module
passed in. -/
theorem file_line_amended_c2 (w0 : World) (p m text : String) (f : Int) (tm : GoTime)
    (hp : p ≠ "") (h1 : goTrimSpace p = p) (h2 : hasNullByte p = false)
    (h3 : goLen p ≤ 260) (hf : f = 0 ∨ f = 1) (hy : tm.year ≤ 9999)
    (htxt : f = 0 → ('\n' ∉ m.data ∧ '\n' ∉ text.data)) :
    (setLogFile none w0 p f).1 = none ∧
    (∃ line : String,
      ((loggerInfo (Logger.mk m) text tm none (setLogFile none w0 p f).2).1).cfg.logFile =
        some ⟨w0.nextHid, p, line ++ "\n"⟩ ∧
      '\n' ∉ line.data ∧
      (f = 0 → line = txtEncode (LogMsg.mk ("INFO") text m tm)) ∧
      (f = 1 → parseJsonLine line.data =
        some (("INFO" : String), text, m, rfcTime tm))) ∧
    (loggerInfo (Logger.mk m) text tm none (setLogFile none w0 p f).2).2.errStream = [] := by
  have hnf : ¬ (f < 0 ∨ 1 < f) := by rcases hf with h | h <;> subst h <;> decide
  have hpe : setLogFilePathErr p = none := by
    unfold setLogFilePathErr
    have h3' : ¬ goLen p > 260 := by omega
    simp [hp, h1, h2, h3']
  have hkey : (setLogFile none w0 p f).1 = none ∧
      (setLogFile none w0 p f).2.cfg.defaultFile = p ∧
      (setLogFile none w0 p f).2.cfg.defaultFormat = f ∧
      (setLogFile none w0 p f).2.cfg.logFile = some ⟨w0.nextHid, p, ""⟩ := by
    unfold setLogFile setDefaultFile closeHandleOnly setDefaultFormatW
    rw [hpe]
    cases hlf : w0.cfg.logFile <;> simp [hnf, hp, hlf]
  obtain ⟨ha, hdf, hfmt, hlf2⟩ := hkey
  rcases hf with hf | hf <;> subst hf
  · have hwt : writeToFile none (setLogFile none w0 p 0).2
        (createLogMessage (Logger.mk m) ("INFO") text tm) =
        (none, putBuf (setLogFile none w0 p 0).2 ⟨w0.nextHid, p, ""⟩
          (txtEncode (LogMsg.mk ("INFO") text m tm) ++ "\n")) := by
      unfold writeToFile createLogMessage
      simp [hdf, hfmt, hlf2, hp]
    refine ⟨ha, ⟨txtEncode (LogMsg.mk ("INFO") text m tm), ?_, ?_, fun _ => rfl,
      fun h01 => absurd h01 (by decide)⟩, ?_⟩
    · unfold loggerInfo loggerLog printLogMessage
      rw [hwt]
      simp [putBuf, hlf2]
    · exact txtEncode_noNL (LogMsg.mk ("INFO") text m tm)
        (by show ('\n' ∉ ("INFO" : String).data); decide)
        (htxt rfl).1 (htxt rfl).2
    · unfold loggerInfo loggerLog printLogMessage
      rw [hwt]
  · have hjm : jsonMarshal (createLogMessage (Logger.mk m) ("INFO") text tm) =
        Except.ok (jsonEncode (LogMsg.mk ("INFO") text m tm)) := by
      unfold jsonMarshal createLogMessage
      have hy' : ¬ tm.year ≥ 10000 := by omega
      simp [hy']
    have hwt : writeToFile none (setLogFile none w0 p 1).2
        (createLogMessage (Logger.mk m) ("INFO") text tm) =
        (none, putBuf (setLogFile none w0 p 1).2 ⟨w0.nextHid, p, ""⟩
          (jsonEncode (LogMsg.mk ("INFO") text m tm) ++ "\n")) := by
      unfold writeToFile
      simp [hdf, hfmt, hlf2, hp, hjm]
    refine ⟨ha, ⟨jsonEncode (LogMsg.mk ("INFO") text m tm), ?_, ?_,
      fun h10 => absurd h10 (by decide), fun _ => ?_⟩, ?_⟩
    · unfold loggerInfo loggerLog printLogMessage
      rw [hwt]
      simp [putBuf, hlf2]
    · exact jsonEncode_noNL (LogMsg.mk ("INFO") text m tm)
    · exact parseJson_roundtrip (LogMsg.mk ("INFO") text m tm)
    · unfold loggerInfo loggerLog printLogMessage
      rw [hwt]

/-- Witness for the amended C2: one JSON `Info` call whose text needs
escaping, recovered exactly by the parser. -/
theorem file_line_amended_c2_w :
    (setLogFile none initialWorld ("app.log") 1).1 = none ∧
    ∃ line : String,
      ((loggerInfo (Logger.mk ("api")) ("hello <\"w\">") (GoTime.mk 2024 1 2 3 4 5) none
        (setLogFile none initialWorld ("app.log") 1).2).1).cfg.logFile =
        some ⟨0, "app.log", line ++ "\n"⟩ ∧
      parseJsonLine line.data =
        some (("INFO" : String), "hello <\"w\">", "api",
          rfcTime (GoTime.mk 2024 1 2 3 4 5)) := by
  have h := file_line_amended_c2 initialWorld ("app.log") ("api") ("hello <\"w\">") 1
    (GoTime.mk 2024 1 2 3 4 5) (by decide) (by decide) (by decide) (by decide)
    (Or.inr rfl) (by decide) (fun h10 => absurd h10 (by decide))
  obtain ⟨ha, ⟨line, hl1, hl2, hl3, hl4⟩, he⟩ := h
  exact ⟨ha, ⟨line, hl1, hl4 rfl⟩⟩
